import Mathlib

/-!
Shallow embedding of the batched, concurrency-bounded PDF text-extraction
pipeline of pig-mesh/office2md: the class PDFProcessor and the function
ocr_worker in src/app/utils/pdf_utils.py, together with the call site of
PDFProcessor.extract_text in src/app/api/md.py (upload_file).

External collaborators (PyMuPDF pages, the filesystem, the MarkItDown/OpenAI
recognition call, the process-pool executor) are modelled by explicit fields
recording how each fallible call behaves for the page at hand: an
Except-valued field is .ok when the call succeeds and .error when it raises.
Python exceptions are modelled by Except values; a Lean function that returns
a plain (non-Except) result therefore embeds Python code that never lets an
exception escape.
-/

namespace Office2md

/-- Python str.strip(): drop whitespace from both ends. (Modelled on the
character list so that it evaluates by kernel reduction; Lean's String.trim
agrees on ASCII whitespace but does not reduce.) -/
def pyStrip (s : String) : String :=
  ⟨((s.data.dropWhile Char.isWhitespace).reverse.dropWhile Char.isWhitespace).reverse⟩

instance {ε α : Type} [DecidableEq ε] [DecidableEq α] : DecidableEq (Except ε α) :=
  fun a b =>
    match a, b with
    | .ok x, .ok y =>
      if h : x = y then isTrue (congrArg Except.ok h)
      else isFalse fun hh => h (Except.ok.inj hh)
    | .error x, .error y =>
      if h : x = y then isTrue (congrArg Except.error h)
      else isFalse fun hh => h (Except.error.inj hh)
    | .ok _, .error _ => isFalse fun hh => Except.noConfusion hh
    | .error _, .ok _ => isFalse fun hh => Except.noConfusion hh

/-- Behaviour of one PDF page as seen through the external collaborators used
by PDFProcessor.process_page (pdf_utils.py lines 57-121):
localText is what page.get_text() returns; pixmap is the outcome of
page.get_pixmap(); save is the outcome of pix.save(temp_img.name); submit is
the outcome of the loop.run_in_executor submission machinery; convert is the
outcome of markitdown.convert(...).text_content inside ocr_worker (its payload
is Optional[str]); unlink is the outcome of os.unlink(temp_img.name). -/
structure Page where
  localText : String
  pixmap : Except Unit Unit
  save : Except Unit Unit
  submit : Except Unit Unit
  convert : Except Unit (Option String)
  unlink : Except Unit Unit
  deriving DecidableEq, Repr

/-- Instrumentation of the side effects performed by process_page for one
page: whether page.get_pixmap was invoked, whether the NamedTemporaryFile
(delete=False) was created on disk, whether the recognition call was submitted
to the executor, whether os.unlink was invoked in the finally block, and
whether the temporary file was actually removed (unlink invoked and
succeeded; pdf_utils.py lines 112-117 swallow unlink failures). -/
structure PageTrace where
  rendered : Bool
  tmpCreated : Bool
  ocrCalled : Bool
  unlinkCalled : Bool
  tmpDeleted : Bool
  deriving DecidableEq, Repr

/-- ocr_worker (pdf_utils.py lines 24-40): builds a client and runs the
MarkItDown conversion, returning result.text_content; every exception is
caught, logged and turned into None. -/
def ocr_worker (convert : Except Unit (Option String)) : Option String :=
  match convert with
  | .ok t => t
  | .error _ => none

/-- PDFProcessor.process_page (pdf_utils.py lines 57-121), instrumented with a
PageTrace. Steps: strip the direct text and return it if non-empty; otherwise
render a pixmap, save it to a NamedTemporaryFile(delete=False), submit
ocr_worker to the executor, and in a finally block unlink the temporary file
(unlink failures are logged and swallowed). Exceptions from rendering, saving
or the submission are caught at lines 119-121 and become a (page_num, None)
result. Note that pix.save runs before the try/finally that unlinks the file,
so a save failure leaves the temporary file behind. -/
def process_page (page : Page) (page_num : Nat) :
    (Nat × Option String) × PageTrace :=
  let text := pyStrip page.localText
  if text ≠ "" then
    ((page_num, some text), ⟨false, false, false, false, false⟩)
  else
    match page.pixmap with
    | .error _ => ((page_num, none), ⟨true, false, false, false, false⟩)
    | .ok _ =>
      match page.save with
      | .error _ => ((page_num, none), ⟨true, true, false, false, false⟩)
      | .ok _ =>
        let deleted := match page.unlink with
          | .ok _ => true
          | .error _ => false
        match page.submit with
        | .error _ => ((page_num, none), ⟨true, true, true, true, deleted⟩)
        | .ok _ =>
          ((page_num, ocr_worker page.convert), ⟨true, true, true, true, deleted⟩)

/-- Default page used only to give List.getD a second argument; the batching
code below indexes only in bounds, so it is never selected. -/
def dfltPage : Page :=
  ⟨"", .error (), .error (), .error (), .error (), .error ()⟩

/-- PDFProcessor.process_batch (pdf_utils.py lines 123-143): one process_page
task per page_num in range(start_page, min(end_page, len(pdf_document)));
asyncio.gather returns their results in task order. -/
def process_batch (pdf_document : List Page) (start_page end_page : Nat) :
    List (Nat × Option String) :=
  (List.range' start_page (min end_page pdf_document.length - start_page)).map
    fun page_num => (process_page (pdf_document.getD page_num dfltPage) page_num).1

/-- Python range(start, stop, step) for a positive step, in closed form:
the arithmetic progression from start of length ceil((stop-start)/step).
Python raises ValueError when step == 0; callers below model that exception
explicitly before ever evaluating this function at step = 0. -/
def pyRange (start stop step : Nat) : List Nat :=
  if 0 < step then List.range' start ((stop - start + step - 1) / step) step
  else []

/-- Filter applied by the aggregation step (pdf_utils.py line 194): Python
keeps text for `if text`, i.e. when it is neither None nor empty. -/
def truthyText (r : Nat × Option String) : Option String :=
  match r.2 with
  | some t => if t = "" then none else some t
  | none => none

/-- Truthiness of an Optional[str] page text. -/
def truthy (t : Option String) : Bool :=
  match t with
  | some s => s ≠ ""
  | none => false

/-- Sorting step of the aggregation (pdf_utils.py line 193):
all_results.sort(key=lambda x: x[0]). Python's sort is a stable sort by the
page index; it is modelled by a stable insertion sort on the same key. -/
def sortResults (l : List (Nat × Option String)) : List (Nat × Option String) :=
  List.insertionSort (fun a b => a.1 ≤ b.1) l

/-- valid_texts (pdf_utils.py line 194) computed from the sorted results. -/
def valid_texts (l : List (Nat × Option String)) : List String :=
  (sortResults l).filterMap truthyText

/-- Aggregation step of PDFProcessor.extract_text (pdf_utils.py lines
192-205): sort by page index, keep truthy texts, join with a single newline;
success iff some text survived. -/
def aggregate (all_results : List (Nat × Option String)) : Bool × String :=
  let valid := valid_texts all_results
  if valid.isEmpty then (false, "")
  else (true, String.intercalate ("\n") valid)

/-- Concatenation of all batch results in batch order (pdf_utils.py lines
161-190): batch start pages are range(0, total_pages, batch_size) and each
batch covers pages up to min(start_page + batch_size, total_pages); gather
keeps batch order and all_results accumulates with extend. -/
def all_outcomes (pdf_document : List Page) (batch_size : Nat) :
    List (Nat × Option String) :=
  (pyRange 0 pdf_document.length batch_size).flatMap fun start_page =>
    process_batch pdf_document start_page
      (min (start_page + batch_size) pdf_document.length)

/-- Result of one extraction session: the (success, text) pair returned by
PDFProcessor.extract_text plus whether the finally block (pdf_utils.py lines
211-213) closed the document handle. -/
structure SessionResult where
  success : Bool
  text : String
  closed : Bool
  deriving DecidableEq, Repr

/-- Total page count reported in the session log right after opening the
document (pdf_utils.py line 159). -/
def reported_total_pages (pdf_document : List Page) : Nat :=
  pdf_document.length

/-- PDFProcessor.extract_text (pdf_utils.py lines 145-213). openResult models
fitz.open(pdf_path): .error when opening raises. The whole body sits in a
try/except returning (False, "") on any exception, with a finally block that
closes the handle when it was opened. Exceptions modelled explicitly:
range(0, total_pages, 0) raises ValueError when batch_size = 0, and the
success-rate log at line 198 divides by total_pages and raises
ZeroDivisionError when total_pages = 0; both are caught by the except at line
207 after which the finally block closes the document. -/
def extract_text (openResult : Except Unit (List Page)) (batch_size : Nat) :
    SessionResult :=
  match openResult with
  | .error _ => ⟨false, "", false⟩
  | .ok pdf_document =>
    let total_pages := pdf_document.length
    if batch_size = 0 then ⟨false, "", true⟩
    else
      let agg := aggregate (all_outcomes pdf_document batch_size)
      if total_pages = 0 then ⟨false, "", true⟩
      else ⟨agg.1, agg.2, true⟩

/-- Number of worker processes of the ProcessPoolExecutor created by
PDFProcessor.__aenter__ (pdf_utils.py line 49): max_workers =
self.concurrent_limit. -/
def max_workers (concurrent_limit : Nat) : Nat :=
  concurrent_limit

/-- State of the recognition worker pool: how many submitted recognition
calls are still queued, how many are executing in a worker process, and how
many have completed. -/
structure PoolState where
  pending : Nat
  running : Nat
  done : Nat
  deriving DecidableEq, Repr

/-- Transition system of a process pool with the given worker limit, the
semantics of ProcessPoolExecutor(max_workers = limit) through which
process_page routes every recognition call (run_in_executor, pdf_utils.py
lines 93-98): a submission may arrive at any time (page-level tasks are
unbounded), a queued call starts only while fewer than limit calls are
running, and a running call may finish. -/
inductive PoolStep (limit : Nat) : PoolState → PoolState → Prop
  | submit (p r d : Nat) : PoolStep limit ⟨p, r, d⟩ ⟨p + 1, r, d⟩
  | start (p r d : Nat) : r < limit → PoolStep limit ⟨p + 1, r, d⟩ ⟨p, r + 1, d⟩
  | finish (p r d : Nat) : PoolStep limit ⟨p, r + 1, d⟩ ⟨p, r, d + 1⟩

/-- States the pool can reach from idle during a session. -/
def PoolReachable (limit : Nat) (s : PoolState) : Prop :=
  Relation.ReflTransGen (PoolStep limit) ⟨0, 0, 0⟩ s

/-- Parameter names of PDFProcessor.extract_text after binding self
(pdf_utils.py lines 145-151). -/
def extract_text_params : List String :=
  ["pdf_path", "api_key", "mlm_prompt", "batch_size"]

/-- Number of trailing parameters of extract_text that carry a default
(batch_size = 10). -/
def extract_text_num_defaults : Nat := 1

/-- TypeError raised by CPython when binding call arguments to a signature. -/
inductive CallError where
  | tooManyPositional
  | multipleValues (name : String)
  | unexpectedKeyword (name : String)
  | missingArgument (name : String)
  deriving DecidableEq, Repr

/-- CPython argument binding for a plain (non-variadic) signature: nPos
positional arguments followed by the named keyword arguments. Checks, in
CPython's order: too many positional arguments; a keyword repeating a
positionally filled parameter; an unexpected keyword; a required parameter
(one without a default) left unfilled. -/
def bindCall (params : List String) (numDefaults nPos : Nat)
    (kwargs : List String) : Except CallError Unit :=
  if params.length < nPos then .error .tooManyPositional
  else
    match (params.take nPos).find? (fun p => kwargs.contains p) with
    | some p => .error (.multipleValues p)
    | none =>
      match kwargs.find? (fun k => !params.contains k) with
      | some k => .error (.unexpectedKeyword k)
      | none =>
        match ((params.take (params.length - numDefaults)).drop nPos).find?
            (fun p => !kwargs.contains p) with
        | some p => .error (.missingArgument p)
        | none => .ok ()

/-- Argument binding of the call made by upload_file (src/app/api/md.py lines
143-150): processor.extract_text(file_path, used_base_url, used_api_key,
used_model, used_prompt, batch_size=used_batch_size) — five positional
arguments plus the batch_size keyword. -/
def upload_pdf_fallback_call : Except CallError Unit :=
  bindCall extract_text_params extract_text_num_defaults 5 ["batch_size"]

/-- PDF-fallback step of upload_file: bind the arguments of the
extract_text call and, were binding to succeed, run extract_text and hand the
(success, text) pair back; a binding failure raises TypeError out of
upload_file, so no pair is produced. -/
def upload_pdf_fallback (openResult : Except Unit (List Page))
    (batch_size : Nat) : Except CallError (Bool × String) :=
  match upload_pdf_fallback_call with
  | .error e => .error e
  | .ok _ =>
    let r := extract_text openResult batch_size
    .ok (r.success, r.text)

/-- Page with non-empty native text, used to instantiate theorems. -/
def textPage : Page := ⟨"hello", .ok (), .ok (), .ok (), .ok none, .ok ()⟩

/-- Page with no native text whose whole escalation succeeds. -/
def ocrPage : Page := ⟨"", .ok (), .ok (), .ok (), .ok (some ("ocr")), .ok ()⟩

/-- Page with no native text for which pix.save raises. -/
def leakPage : Page := ⟨"", .ok (), .error (), .ok (), .ok (some ("ocr")), .ok ()⟩

instance : IsTrans (Nat × Option String) (fun a b => a.1 ≤ b.1) :=
  ⟨fun _ _ _ h h' => le_trans h h'⟩

instance : IsTotal (Nat × Option String) (fun a b => a.1 ≤ b.1) :=
  ⟨fun a b => Nat.le_total a.1 b.1⟩

instance : IsAntisymm (Nat × Option String) (fun a b => a.1 < b.1) :=
  ⟨fun _ _ h h' => absurd (lt_trans h h') (lt_irrefl _)⟩

theorem process_page_fst (p : Page) (n : Nat) : (process_page p n).1.1 = n := by
  obtain ⟨lt, px, sv, sb, cv, ul⟩ := p
  by_cases h : pyStrip lt ≠ "" <;>
    cases px <;> cases sv <;> cases sb <;> cases ul <;>
      simp [process_page, h]

theorem process_page_result_snd (p : Page) (n m : Nat) :
    (process_page p n).1.2 = (process_page p m).1.2 := by
  obtain ⟨lt, px, sv, sb, cv, ul⟩ := p
  by_cases h : pyStrip lt ≠ "" <;>
    cases px <;> cases sv <;> cases sb <;> cases ul <;>
      simp [process_page, h]

theorem range'_one_append (s m n : Nat) :
    List.range' s m ++ List.range' (s + m) n = List.range' s (m + n) := by
  have := List.range'_append s m n 1
  simpa [Nat.add_comm] using this

theorem ceil_div_mul_ge (total bs : Nat) (hbs : 0 < bs) :
    total ≤ ((total + bs - 1) / bs) * bs := by
  have hdm := Nat.div_add_mod (total + bs - 1) bs
  have hmod : (total + bs - 1) % bs < bs := Nat.mod_lt _ hbs
  rw [Nat.mul_comm]
  generalize hr : (total + bs - 1) % bs = r at hdm hmod
  generalize hP : bs * ((total + bs - 1) / bs) = P at hdm
  omega

theorem batches_cover {α : Type} (g : Nat → α) (total bs : Nat) :
    ∀ (n start : Nat),
      (List.range' start n bs).flatMap
          (fun s => (List.range' s (min (s + bs) total - s)).map g)
        = (List.range' start (min (start + n * bs) total - start)).map g := by
  intro n
  induction n with
  | zero =>
    intro start
    have h0 : min (start + 0 * bs) total - start = 0 := by omega
    simp [h0]
  | succ n ih =>
    intro start
    rw [List.range'_succ, List.flatMap_cons, ih (start + bs), Nat.succ_mul]
    generalize n * bs = M
    rcases le_or_lt (start + bs) total with hc | hc
    · have h1 : min (start + bs) total - start = bs := by omega
      have h2 : bs + (min (start + bs + M) total - (start + bs))
          = min (start + (M + bs)) total - start := by omega
      rw [h1, ← List.map_append, range'_one_append, h2]
    · have e1 : min (start + bs) total - start = total - start := by omega
      have e2 : min (start + bs + M) total - (start + bs) = 0 := by omega
      have e3 : min (start + (M + bs)) total - start = total - start := by omega
      rw [e1, e2, e3]
      simp

theorem all_outcomes_map (doc : List Page) (bs : Nat) (hbs : 0 < bs) :
    all_outcomes doc bs
      = (List.range doc.length).map
          (fun pn => (process_page (doc.getD pn dfltPage) pn).1) := by
  unfold all_outcomes pyRange process_batch
  rw [if_pos hbs]
  have hmin : ∀ s : Nat,
      min (min (s + bs) doc.length) doc.length = min (s + bs) doc.length := by
    intro s
    omega
  simp only [hmin]
  rw [batches_cover (fun pn => (process_page (doc.getD pn dfltPage) pn).1)
    doc.length bs (((doc.length : Nat) - 0 + bs - 1) / bs) 0]
  simp only [Nat.sub_zero, Nat.zero_add]
  have hge := ceil_div_mul_ge doc.length bs hbs
  have h2 : min (((doc.length + bs - 1) / bs) * bs) doc.length = doc.length := by
    omega
  rw [h2, List.range_eq_range']

theorem sorted_of_nodup_keys (u : List (Nat × Option String))
    (hnd : (u.map Prod.fst).Nodup)
    (hsort : List.Sorted (fun a b => a.1 ≤ b.1) u) :
    List.Sorted (fun a b : Nat × Option String => a.1 < b.1) u := by
  rw [List.Nodup, List.pairwise_map] at hnd
  exact (hsort.and hnd).imp fun h => lt_of_le_of_ne h.1 h.2

theorem sorted_keys_unique (s t : List (Nat × Option String))
    (hperm : s.Perm t) (hnd : (s.map Prod.fst).Nodup)
    (hs : List.Sorted (fun a b => a.1 ≤ b.1) s)
    (ht : List.Sorted (fun a b => a.1 ≤ b.1) t) : s = t := by
  have hndt : (t.map Prod.fst).Nodup := (hperm.map Prod.fst).nodup_iff.mp hnd
  exact List.eq_of_perm_of_sorted hperm
    (sorted_of_nodup_keys s hnd hs) (sorted_of_nodup_keys t hndt ht)

theorem sortResults_perm (l : List (Nat × Option String)) : (sortResults l).Perm l :=
  List.perm_insertionSort _ l

theorem sortResults_sorted (l : List (Nat × Option String)) :
    List.Sorted (fun a b => a.1 ≤ b.1) (sortResults l) :=
  List.sorted_insertionSort _ l

theorem sortResults_eq_of_perm (l l' : List (Nat × Option String))
    (hperm : l.Perm l') (hnd : (l.map Prod.fst).Nodup) :
    sortResults l = sortResults l' := by
  refine sorted_keys_unique _ _
    ((sortResults_perm l).trans (hperm.trans (sortResults_perm l').symm))
    ?_ (sortResults_sorted l) (sortResults_sorted l')
  exact ((sortResults_perm l).map Prod.fst).nodup_iff.mpr hnd

theorem truthyText_eq_none_iff (r : Nat × Option String) :
    truthyText r = none ↔ truthy r.2 = false := by
  rcases r with ⟨i, _ | t⟩
  · simp [truthyText, truthy]
  · by_cases h : t = "" <;> simp [truthyText, truthy, h]

theorem valid_texts_eq_nil_iff (l : List (Nat × Option String)) :
    valid_texts l = [] ↔ ∀ r ∈ l, truthy r.2 = false := by
  unfold valid_texts
  rw [List.filterMap_eq_nil_iff]
  constructor
  · intro h r hr
    exact (truthyText_eq_none_iff r).mp (h r ((sortResults_perm l).mem_iff.mpr hr))
  · intro h r hr
    exact (truthyText_eq_none_iff r).mpr (h r ((sortResults_perm l).mem_iff.mp hr))

theorem getD_eq_get (l : List Page) (i : Nat) (h : i < l.length) :
    l.getD i dfltPage = l.get ⟨i, h⟩ := by
  rw [List.getD_eq_getElem?_getD, List.getElem?_eq_getElem h]
  rfl

theorem forall_outcomes_iff (doc : List Page) (bs : Nat) (hbs : 0 < bs) :
    (∀ r ∈ all_outcomes doc bs, truthy r.2 = false) ↔
      ∀ p ∈ doc, truthy (process_page p 0).1.2 = false := by
  rw [all_outcomes_map doc bs hbs]
  constructor
  · intro h p hp
    obtain ⟨i, rfl⟩ := List.mem_iff_get.mp hp
    have hmem : (process_page (doc.getD i.1 dfltPage) i.1).1
        ∈ (List.range doc.length).map
          (fun pn => (process_page (doc.getD pn dfltPage) pn).1) :=
      List.mem_map_of_mem _ (List.mem_range.mpr i.2)
    have hr := h _ hmem
    rwa [getD_eq_get doc i.1 i.2, process_page_result_snd _ i.1 0] at hr
  · intro h r hr
    obtain ⟨pn, hpn, rfl⟩ := List.mem_map.mp hr
    have hlt : pn < doc.length := List.mem_range.mp hpn
    have hp := h (doc.get ⟨pn, hlt⟩) (List.get_mem doc pn hlt)
    rwa [getD_eq_get doc pn hlt, process_page_result_snd _ pn 0]

/-- C1: for every list of per-page outcomes with pairwise-distinct page
indices, the aggregation step of extract_text produces the same result
whatever order the outcomes arrive in, and its merged text equals the texts of
the outcomes that have text, taken in ascending page-index order (any
ascending arrangement s of the outcomes), joined with a single newline. -/
theorem aggregate_order_invariant (l l' s : List (Nat × Option String))
    (hperm : l.Perm l') (hnd : (l.map Prod.fst).Nodup)
    (hsperm : s.Perm l)
    (hsorted : List.Sorted (fun a b => a.1 ≤ b.1) s) :
    aggregate l = aggregate l' ∧
    (aggregate l).2 = String.intercalate ("\n") (s.filterMap truthyText) := by
  have hagg : aggregate l = aggregate l' := by
    unfold aggregate valid_texts
    rw [sortResults_eq_of_perm l l' hperm hnd]
  refine ⟨hagg, ?_⟩
  have hss : s = sortResults l :=
    sorted_keys_unique s (sortResults l)
      (hsperm.trans (sortResults_perm l).symm)
      ((hsperm.map Prod.fst).nodup_iff.mpr hnd)
      hsorted (sortResults_sorted l)
  rw [hss]
  show (aggregate l).2 = String.intercalate ("\n") (valid_texts l)
  by_cases hv : valid_texts l = []
  · simp [aggregate, hv]
    rfl
  · simp [aggregate, hv]

theorem aggregate_order_invariant_w :
    aggregate [(1, some ("b")), (0, some ("a"))]
        = aggregate [(0, some ("a")), (1, some ("b"))] ∧
      (aggregate [(1, some ("b")), (0, some ("a"))]).2
        = String.intercalate ("\n")
            ([(0, some ("a")), (1, some ("b"))].filterMap truthyText) :=
  aggregate_order_invariant
    [(1, some ("b")), (0, some ("a"))] [(0, some ("a")), (1, some ("b"))]
    [(0, some ("a")), (1, some ("b"))]
    (by decide) (by decide) (by decide) (by decide)

/-- C2: for every document and positive batch size, the page indices of the
outcomes collected by extract_text across all batches are exactly
0, ..., total_pages - 1, in order, with no duplicates and no gaps: every page
yields exactly one outcome whether its extraction succeeded or failed. -/
theorem batches_yield_every_page_once (doc : List Page) (bs : Nat)
    (hbs : 0 < bs) :
    (all_outcomes doc bs).map Prod.fst = List.range doc.length := by
  rw [all_outcomes_map doc bs hbs, List.map_map]
  have h : ∀ pn ∈ List.range doc.length,
      (Prod.fst ∘ fun pn => (process_page (doc.getD pn dfltPage) pn).1) pn
        = id pn := by
    intro pn _
    exact process_page_fst _ pn
  rw [List.map_congr_left h, List.map_id]

theorem batches_yield_every_page_once_w :
    (all_outcomes [textPage, dfltPage, ocrPage] 2).map Prod.fst
      = List.range ([textPage, dfltPage, ocrPage] : List Page).length :=
  batches_yield_every_page_once [textPage, dfltPage, ocrPage] 2 (by decide)

/-- C3: for every page whose rendering, raster saving, executor submission or
recognition call fails (raises, returns None, or returns an empty result),
process_page returns an outcome for that page with no text instead of letting
the exception escape (its Lean embedding is a total function), and every
sibling page of any batch still yields its own outcome. -/
theorem page_failures_absorbed (p : Page) (n : Nat) (doc : List Page)
    (s e : Nat)
    (hlocal : pyStrip p.localText = "")
    (hfail : p.pixmap = .error () ∨ p.save = .error () ∨ p.submit = .error ()
      ∨ p.convert = .error () ∨ p.convert = .ok none
      ∨ p.convert = .ok (some (""))) :
    (process_page p n).1.1 = n ∧ truthy (process_page p n).1.2 = false ∧
      (process_batch doc s e).length = min e doc.length - s := by
  refine ⟨process_page_fst p n, ?_, by simp [process_batch]⟩
  obtain ⟨lt, px, sv, sb, cv, ul⟩ := p
  rcases hfail with h | h | h | h | h | h <;>
    cases px <;> cases sv <;> cases sb <;>
      simp_all [process_page, truthy, ocr_worker]

theorem page_failures_absorbed_w :
    (process_page dfltPage 3).1.1 = 3 ∧
      truthy (process_page dfltPage 3).1.2 = false ∧
      (process_batch [dfltPage] 0 1).length
        = min 1 ([dfltPage] : List Page).length - 0 :=
  page_failures_absorbed dfltPage 3 [dfltPage] 0 1 (by decide) (Or.inl (by decide))

/-- C4: for every page whose directly extracted native text is non-empty
after stripping whitespace, process_page returns that text immediately, and
its trace shows that it never rendered the page, never created a temporary
file and never issued a recognition call. -/
theorem direct_text_short_circuits (p : Page) (n : Nat)
    (h : pyStrip p.localText ≠ "") :
    process_page p n
      = ((n, some (pyStrip p.localText)), ⟨false, false, false, false, false⟩) := by
  simp [process_page, h]

theorem direct_text_short_circuits_w :
    process_page textPage 0
      = ((0, some (pyStrip textPage.localText)),
          ⟨false, false, false, false, false⟩) :=
  direct_text_short_circuits textPage 0 (by decide)

/-- C5: for a positive batch size, extract_text reports success = true iff at
least one page yielded non-empty (truthy) text; in particular when every page
fails both direct extraction and recognition it returns success = false with
empty text. -/
theorem extract_text_success_iff (doc : List Page) (bs : Nat) (hbs : 0 < bs) :
    ((extract_text (.ok doc) bs).success = true ↔
      ∃ p ∈ doc, truthy (process_page p 0).1.2 = true) ∧
    ((∀ p ∈ doc, truthy (process_page p 0).1.2 = false) →
      extract_text (.ok doc) bs = ⟨false, "", true⟩) := by
  have hbs' : ¬ bs = 0 := by omega
  have hiff : valid_texts (all_outcomes doc bs) = [] ↔
      ∀ p ∈ doc, truthy (process_page p 0).1.2 = false :=
    (valid_texts_eq_nil_iff _).trans (forall_outcomes_iff doc bs hbs)
  constructor
  · by_cases hT : doc.length = 0
    · have hdoc : doc = [] := List.length_eq_zero.mp hT
      subst hdoc
      simp [extract_text, hbs']
    · by_cases hv : valid_texts (all_outcomes doc bs) = []
      · have hall := hiff.mp hv
        have hres : extract_text (.ok doc) bs = ⟨false, "", true⟩ := by
          simp [extract_text, hbs', hT, aggregate, hv]
        rw [hres]
        simp only [show ((⟨false, "", true⟩ : SessionResult)).success = false from rfl]
        constructor
        · intro hfalse
          exact absurd hfalse (by simp)
        · rintro ⟨p, hp, ht⟩
          rw [hall p hp] at ht
          exact absurd ht (by simp)
      · have hres : extract_text (.ok doc) bs
            = ⟨true,
                String.intercalate ("\n") (valid_texts (all_outcomes doc bs)),
                true⟩ := by
          simp [extract_text, hbs', hT, aggregate, List.isEmpty_iff, hv]
        rw [hres]
        constructor
        · intro _
          by_contra hno
          push_neg at hno
          apply hv
          apply hiff.mpr
          intro p hp
          cases hcase : truthy (process_page p 0).1.2
          · rfl
          · exact absurd hcase (hno p hp)
        · intro _
          rfl
  · intro hall
    have hv : valid_texts (all_outcomes doc bs) = [] := hiff.mpr hall
    by_cases hT : doc.length = 0 <;>
      simp [extract_text, hbs', hT, aggregate, hv]

theorem extract_text_success_iff_w :
    ((extract_text (.ok [ocrPage]) 10).success = true ↔
      ∃ p ∈ ([ocrPage] : List Page), truthy (process_page p 0).1.2 = true) ∧
    ((∀ p ∈ ([ocrPage] : List Page), truthy (process_page p 0).1.2 = false) →
      extract_text (.ok [ocrPage]) 10 = ⟨false, "", true⟩) :=
  extract_text_success_iff [ocrPage] 10 (by decide)

/-- C6: for an empty document, extract_text returns success = false with
empty text (the handle having been closed), and the logged page count records
total_pages = 0. -/
theorem extract_text_empty_document (bs : Nat) :
    extract_text (.ok []) bs = ⟨false, "", true⟩ ∧
      reported_total_pages [] = 0 := by
  refine ⟨?_, rfl⟩
  by_cases h : bs = 0 <;> simp [extract_text, h]

/-- C7 counterexample: a page with no native text whose pix.save call raises
is escalated to recognition and its temporary raster file is created, yet the
file is never deleted (os.unlink is not even invoked), because pix.save runs
before the try/finally block that performs the cleanup. -/
theorem tmpfile_not_deleted_on_save_failure :
    pyStrip leakPage.localText = "" ∧
    (process_page leakPage 0).2.tmpCreated = true ∧
    (process_page leakPage 0).2.tmpDeleted = false ∧
    (process_page leakPage 0).2.unlinkCalled = false := by decide

/-- C7 (amended): for every escalated page whose raster image is successfully
written to the temporary file, the deletion of that file is invoked after the
recognition call completes on every exit path (recognition success, failure
and exceptions alike), and the file is deleted whenever the deletion call
itself succeeds; if writing the raster fails the file is left behind, and a
deletion failure is logged and swallowed. -/
theorem tmpfile_cleanup_after_save (p : Page) (n : Nat)
    (hlocal : pyStrip p.localText = "")
    (hpix : p.pixmap = .ok ())
    (hsave : p.save = .ok ()) :
    (process_page p n).2.unlinkCalled = true ∧
      (p.unlink = .ok () → (process_page p n).2.tmpDeleted = true) := by
  obtain ⟨lt, px, sv, sb, cv, ul⟩ := p
  cases sb <;> cases ul <;> simp_all [process_page]

theorem tmpfile_cleanup_after_save_w :
    (process_page ocrPage 1).2.unlinkCalled = true ∧
      (ocrPage.unlink = .ok () → (process_page ocrPage 1).2.tmpDeleted = true) :=
  tmpfile_cleanup_after_save ocrPage 1 (by decide) (by decide) (by decide)

/-- C8: if the document source cannot be opened, extract_text reports overall
failure with no partial output (and there is no handle to close); in all
cases the caller receives a definite SessionResult — the embedding is a total
function, so no exception propagates — and once the document was opened, the
handle is closed before extract_text returns. -/
theorem session_failure_and_cleanup (openResult : Except Unit (List Page))
    (bs : Nat) :
    (∀ e : Unit, openResult = .error e →
      extract_text openResult bs = ⟨false, "", false⟩) ∧
    (∀ doc : List Page, openResult = .ok doc →
      (extract_text openResult bs).closed = true) := by
  constructor
  · rintro e rfl
    rfl
  · rintro doc rfl
    by_cases h : bs = 0
    · simp [extract_text, h]
    · by_cases hT : doc.length = 0 <;> simp [extract_text, h, hT]

theorem session_failure_and_cleanup_w :
    extract_text (.error ()) 10 = ⟨false, "", false⟩ ∧
      (extract_text (.ok [textPage]) 10).closed = true :=
  ⟨(session_failure_and_cleanup (.error ()) 10).1 () rfl,
   (session_failure_and_cleanup (.ok [textPage]) 10).2 [textPage] rfl⟩

/-- C9: in every state the recognition worker pool can reach during a session,
at most concurrent_limit recognition calls are running simultaneously — the
pool created with max_workers = concurrent_limit is what enforces the
ceiling, no matter how many page-level submissions are outstanding. -/
theorem recognition_concurrency_bound (concurrent_limit : Nat) (s : PoolState)
    (h : PoolReachable (max_workers concurrent_limit) s) :
    s.running ≤ concurrent_limit := by
  have h' : Relation.ReflTransGen (PoolStep (max_workers concurrent_limit))
      ⟨0, 0, 0⟩ s := h
  clear h
  induction h' with
  | refl => exact Nat.zero_le _
  | tail _ hstep ih =>
    cases hstep with
    | submit p r d => exact ih
    | start p r d hlt => exact hlt
    | finish p r d => exact Nat.le_of_succ_le ih

theorem recognition_concurrency_bound_w :
    (PoolState.mk 0 1 0).running ≤ 5 :=
  recognition_concurrency_bound 5 ⟨0, 1, 0⟩
    (Relation.ReflTransGen.tail
      (Relation.ReflTransGen.tail Relation.ReflTransGen.refl
        (PoolStep.submit 0 0 0))
      (PoolStep.start 0 0 0 (by decide)))

/-- C10: the upload_file PDF fallback invokes extract_text with five
positional arguments plus a batch_size keyword against a signature accepting
only (pdf_path, api_key, mlm_prompt, batch_size=10), so binding raises a
TypeError (too many positional arguments) and the fallback (success, text)
pair is never produced, for every document and batch size. -/
theorem upload_pdf_fallback_type_error :
    upload_pdf_fallback_call = .error .tooManyPositional ∧
    ∀ (openResult : Except Unit (List Page)) (bs : Nat),
      upload_pdf_fallback openResult bs = .error .tooManyPositional := by
  exact ⟨by decide, fun openResult bs => rfl⟩

end Office2md
